/-
Verification of the sequence-slot allocation / template-cropping core of
xiaomi-miloco (`src/miloco_ai_engine/core/utils/mico-common.cpp` together
with its header `mico-common.h`).

The C++ code is shallowly embedded:
* `std::map<size_t, LlamaSeqState> process_seqs` accessed only through
  `operator[]` (which default-constructs missing entries) is modelled as a
  total function `Nat → LlamaSeqState` whose default value is the
  default-constructed record;
* `std::map<size_t, int32_t> cmpl_to_seq` is modelled as an association
  list ordered by key (`std::map` iteration order); `operator[]`,
  `count`, `erase` and ascending iteration are modelled explicitly;
* `size_t` arithmetic is `Nat` arithmetic modulo `2 ^ 64` (made explicit
  exactly where the C++ can wrap), `int32_t` is `Int` with an explicit
  wrap where overflow could matter;
* an out-of-bounds `std::vector` access (undefined behaviour) is
  represented by `Except.error ()`;
* `exit(1)` in the constructor is represented by `Except.error`.
-/
import Mathlib

set_option autoImplicit false

namespace Miloco

/-- Modulus of `size_t` arithmetic (64-bit target). -/
def SIZE_T_MOD : Nat := 2 ^ 64

/-- Wrap an unbounded integer into `int32_t` two's-complement range. -/
def wrap32 (x : Int) : Int := (x + 2 ^ 31) % 2 ^ 32 - 2 ^ 31

/-- `size_t` subtraction `a - b` (wraps modulo `2 ^ 64`), as in the loop
bound `label_tokens.size() - placeholder_tokens.size()`. -/
def sizeSub (a b : Nat) : Nat := (((a : Int) - (b : Int)) % (SIZE_T_MOD : Int)).toNat

/-- `struct LlamaSeqState` from `mico-common.h` (field defaults are the
C++ member initializers; `bitmaps` is an opaque payload). -/
structure LlamaSeqState where
  last_token : Int := -1
  n_past : Nat := 0
  is_infering : Bool := false
  respone : String := ""
  bitmaps : List Nat := []
deriving DecidableEq

/-- `std::map<size_t, int32_t> cmpl_to_seq`, as an association list in
ascending key order. -/
abbrev CmplMap := List (Nat × Int)

/-- First value stored under `key` (`std::map` keys are unique, so this is
the lookup). -/
def mapFind : CmplMap → Nat → Option Int
  | [], _ => none
  | (k, v) :: rest, key => if k = key then some v else mapFind rest key

/-- `m[key] = val` on a key-sorted association list (insert-or-assign,
the effect of `cmpl_to_seq[cmpl_id] = seq_id`). -/
def mapInsert : CmplMap → Nat → Int → CmplMap
  | [], key, val => [(key, val)]
  | (k, v) :: rest, key, val =>
    if key < k then (key, val) :: (k, v) :: rest
    else if key = k then (key, val) :: rest
    else (k, v) :: mapInsert rest key val

/-- `m.erase(key)`: drop the entry stored under `key`, if any. -/
def mapErase : CmplMap → Nat → CmplMap
  | [], _ => []
  | (k, v) :: rest, key => if k = key then rest else (k, v) :: mapErase rest key

/-- `m.count(key)`. -/
def mapCount (m : CmplMap) (key : Nat) : Nat :=
  (m.filter (fun e => e.1 = key)).length

/-- Non-const `operator[]`: returns the stored value, default-inserting
`int32_t{} = 0` when the key is absent. -/
def mapIndex (m : CmplMap) (key : Nat) : Int × CmplMap :=
  match mapFind m key with
  | some v => (v, m)
  | none => (0, mapInsert m key 0)

/-- The mutable/configured state of `struct LlamaMicoContext` relevant to
slot allocation (native handles like `model`, `lctx`, `smpl` are opaque
external resources and are not part of the state). -/
structure MicoState where
  n_seq_max : Int
  kv_cache_seq : Int
  crop_tokens_lable : List Int
  antiprompt_tokens : List Int
  process_seqs : Nat → LlamaSeqState
  cmpl_to_seq : CmplMap

/-- `LlamaMicoContext::get_seq_state`: `process_seqs[seq_id]` under
`process_seqs_mutex` (default-construction by `operator[]` is invisible in
the total-function model). -/
def get_seq_state (s : MicoState) (seq_id : Nat) : LlamaSeqState :=
  s.process_seqs seq_id

/-- The scan `for (int i = 0; i < n_seq_max; i++) if
(!get_seq_state(i).is_infering) { seq_id = i; break; }`, with `fuel` the
number of remaining iterations. -/
def findFreeSlot (s : MicoState) : Nat → Nat → Int
  | _, 0 => -1
  | i, fuel + 1 =>
    if (get_seq_state s i).is_infering then findFreeSlot s (i + 1) fuel
    else (i : Int)

/-- `LlamaMicoContext::set_seq_id` (reserve). -/
def set_seq_id (s : MicoState) (cmpl_id : Nat) : Int × MicoState :=
  let seq_id := findFreeSlot s 0 s.n_seq_max.toNat
  if seq_id ≠ -1 then
    (seq_id, { s with cmpl_to_seq := mapInsert s.cmpl_to_seq cmpl_id seq_id })
  else
    (seq_id, s)

/-- `LlamaMicoContext::get_seq_id` (lookup):
`cmpl_to_seq.count(cmpl_id) > 0 ? cmpl_to_seq[cmpl_id] : -1`. -/
def get_seq_id (s : MicoState) (cmpl_id : Nat) : Int × MicoState :=
  if 0 < mapCount s.cmpl_to_seq cmpl_id then
    let r := mapIndex s.cmpl_to_seq cmpl_id
    (r.1, { s with cmpl_to_seq := r.2 })
  else
    (-1, s)

/-- The scan in `erase_seq`: `size_t to_erase = -1; for (auto& it :
cmpl_to_seq) if (it.second == seq_id) { to_erase = it.first; break; }`.
The sentinel `-1` converted to `size_t` is `2 ^ 64 - 1`. -/
def findKeyOfSlot : CmplMap → Int → Nat
  | [], _ => SIZE_T_MOD - 1
  | (k, v) :: rest, seq_id => if v = seq_id then k else findKeyOfSlot rest seq_id

/-- `LlamaMicoContext::erase_seq` (release). The guard `to_erase >= 0`
compares a `size_t`, exactly as the C++ does. -/
def erase_seq (s : MicoState) (seq_id : Int) : Bool × MicoState :=
  let to_erase := findKeyOfSlot s.cmpl_to_seq seq_id
  if 0 ≤ to_erase then
    (decide (0 ≤ to_erase), { s with cmpl_to_seq := mapErase s.cmpl_to_seq to_erase })
  else
    (decide (0 ≤ to_erase), s)

/-- `LlamaMicoContext::check_antiprompt`: `std::equal(generated.end() - n,
generated.end(), antiprompt.begin())` behind the emptiness/length guard. -/
def check_antiprompt (s : MicoState) (generated_tokens : List Int) : Bool :=
  if s.antiprompt_tokens.isEmpty
      || generated_tokens.length < s.antiprompt_tokens.length then
    false
  else
    decide (generated_tokens.drop
      (generated_tokens.length - s.antiprompt_tokens.length) = s.antiprompt_tokens)

/-- Inner loop of the crop search: compare `label_tokens[i + j]` with
`placeholder_tokens[j]` for `j` below the placeholder length, stopping at
the first mismatch. Reading past the end of `label_tokens` is undefined
behaviour, returned as `Except.error ()`. -/
def scanAux (label : List Int) (i : Nat) : List Int → Nat → Except Unit Bool
  | [], _ => .ok true
  | p :: rest, j =>
    match label.get? (i + j) with
    | none => .error ()
    | some t => if t ≠ p then .ok false else scanAux label i rest (j + 1)

/-- Outer loop of the crop search starting at index `i` with `fuel`
iterations left; on success returns the final value of the
`crop_tokens_lable` field (initially the empty vector). -/
def cropAux (label ph : List Int) : Nat → Nat → Except Unit (List Int)
  | _, 0 => .ok []
  | i, fuel + 1 =>
    match scanAux label i ph 0 with
    | .error _ => .error ()
    | .ok true => .ok (label.take i)
    | .ok false => cropAux label ph (i + 1) fuel

/-- The constructor's crop-boundary computation: `for (size_t i = 0; i <=
label_tokens.size() - placeholder_tokens.size(); ++i) ...` with the bound
computed in `size_t` arithmetic. -/
def cropTokensLable (label_tokens placeholder_tokens : List Int) :
    Except Unit (List Int) :=
  cropAux label_tokens placeholder_tokens 0
    (sizeSub label_tokens.length placeholder_tokens.length + 1)

/-- Spec-side: the placeholder token sequence occurs contiguously inside
the rendered tokens at index `i`. -/
def occursAt (label ph : List Int) (i : Nat) : Prop :=
  i + ph.length ≤ label.length ∧ (label.drop i).take ph.length = ph

instance occursAtDecidable (label ph : List Int) (i : Nat) :
    Decidable (occursAt label ph i) :=
  inferInstanceAs (Decidable (_ ∧ _))

/-- Spec-side: least occurrence index at or after `i`, searched with
`fuel` positions remaining. -/
def firstOccurAux (label ph : List Int) : Nat → Nat → Option Nat
  | _, 0 => none
  | i, fuel + 1 =>
    if occursAt label ph i then some i else firstOccurAux label ph (i + 1) fuel

/-- Spec-side: index of the first contiguous occurrence of `ph` inside
`label`, if any. -/
def firstOccur (label ph : List Int) : Option Nat :=
  firstOccurAux label ph 0 (label.length + 1)

/-- The configuration fields of `common_params` read by the constructor. -/
structure CommonParams where
  n_seq_max : Int
  cache_seq : Int
  chat_template : String
  mmproj_path : String

/-- External collaborators the constructor calls (inference engine,
tokenizer, template renderer, multimodal loader): modelled as opaque
parameters, since they are outside this core. -/
structure CtorDeps where
  model_ok : Bool
  lctx_ok : Bool
  model_has_chat_template : Bool
  tokenize : String → List Int
  render_user_example : String → String
  mtmd_load_ok : String → Bool

/-- How a constructor run can fail: `exit1` models `exit(1)`, `ub` models
an out-of-bounds vector read (undefined behaviour). -/
inductive CtorErr where
  | exit1 : CtorErr
  | ub : CtorErr
deriving DecidableEq

/-- `LlamaMicoContext::init_vision_context`: always calls
`mtmd_init_from_file(params.mmproj.path.c_str(), ...)` and `exit(1)`s when
it returns null, with no test of whether a path was configured. -/
def init_vision_context (d : CtorDeps) (p : CommonParams) : Except CtorErr Unit :=
  if d.mtmd_load_ok p.mmproj_path then .ok () else .error .exit1

/-- The `LlamaMicoContext` constructor: capacity computation, the
model/context and chat-template fatal checks, the crop-boundary search,
`init_vision_context`, and legacy antiprompt selection, in source order. -/
def runConstructor (d : CtorDeps) (p : CommonParams) : Except CtorErr MicoState :=
  let nsm := wrap32 (p.n_seq_max - p.cache_seq)
  if !(d.model_ok && d.lctx_ok) then .error .exit1
  else if !d.model_has_chat_template && p.chat_template = "" then .error .exit1
  else
    let placeholder_tokens := d.tokenize "*=*"
    let label_tokens := d.tokenize (d.render_user_example "*=*")
    match cropTokensLable label_tokens placeholder_tokens with
    | .error _ => .error .ub
    | .ok crop =>
      match init_vision_context d p with
      | .error e => .error e
      | .ok _ =>
        .ok { n_seq_max := nsm
              kv_cache_seq := p.cache_seq
              crop_tokens_lable := crop
              antiprompt_tokens :=
                if p.chat_template = "vicuna" then d.tokenize "ASSISTANT:"
                else if p.chat_template = "deepseek" then d.tokenize "###"
                else []
              process_seqs := fun _ => {}
              cmpl_to_seq := [] }

/-! Lock-event traces.  The two mutexes of the allocator and the sequence
of acquire/release events each member function performs, read directly
off the `std::lock_guard` uses in the source. -/

/-- The two mutexes guarding shared state. -/
inductive Mu where
  | cmplToSeq : Mu
  | processSeqs : Mu
deriving DecidableEq

/-- A lock event: which mutex, and whether it is an acquire (`true`) or a
release (`false`). -/
abbrev LockEvt := Mu × Bool

/-- `get_seq_state` locks and unlocks `process_seqs_mutex` only. -/
def get_seq_state_trace : List LockEvt :=
  [(Mu.processSeqs, true), (Mu.processSeqs, false)]

/-- Events of the slot scan inside `set_seq_id`: one full
`get_seq_state` critical section per examined slot, stopping at the first
free slot. -/
def scanTrace (s : MicoState) : Nat → Nat → List LockEvt
  | _, 0 => []
  | i, fuel + 1 =>
    get_seq_state_trace ++
      (if (get_seq_state s i).is_infering then scanTrace s (i + 1) fuel else [])

/-- `set_seq_id` holds `cmpl_to_seq_mutex` for its whole body, and the
body runs the slot scan (which calls `get_seq_state`). -/
def set_seq_id_trace (s : MicoState) : List LockEvt :=
  (Mu.cmplToSeq, true) :: (scanTrace s 0 s.n_seq_max.toNat ++ [(Mu.cmplToSeq, false)])

/-- `get_seq_id` locks and unlocks `cmpl_to_seq_mutex` only. -/
def get_seq_id_trace : List LockEvt :=
  [(Mu.cmplToSeq, true), (Mu.cmplToSeq, false)]

/-- `erase_seq` locks and unlocks `cmpl_to_seq_mutex` only. -/
def erase_seq_trace : List LockEvt :=
  [(Mu.cmplToSeq, true), (Mu.cmplToSeq, false)]

/-- Update the held-lock pair `(cmpl_to_seq_mutex, process_seqs_mutex)`
by one event. -/
def stepHeld (h : Bool × Bool) (e : LockEvt) : Bool × Bool :=
  match e.1 with
  | Mu.cmplToSeq => (e.2, h.2)
  | Mu.processSeqs => (h.1, e.2)

/-- Whether, starting from held state `h`, some point of the trace has
both mutexes held at once. -/
def bothHeldFrom (h : Bool × Bool) : List LockEvt → Bool
  | [] => false
  | e :: rest =>
    let h' := stepHeld h e
    (h'.1 && h'.2) || bothHeldFrom h' rest

/-- Whether some point of the trace (started with no lock held) has both
mutexes held at once. -/
def bothHeldDuring (tr : List LockEvt) : Bool :=
  bothHeldFrom (false, false) tr

/-- Whether, starting from held state `h`, the trace ever acquires
mutex `acq` at a moment when mutex `hold` is already held. -/
def acqWhileHoldingFrom (hold acq : Mu) (h : Bool × Bool) : List LockEvt → Bool
  | [] => false
  | e :: rest =>
    let bad := e.1 = acq && e.2 &&
      (match hold with | Mu.cmplToSeq => h.1 | Mu.processSeqs => h.2)
    bad || acqWhileHoldingFrom hold acq (stepHeld h e) rest

/-- Whether the trace (started with no lock held) ever acquires `acq`
while holding `hold`. -/
def acqWhileHolding (hold acq : Mu) (tr : List LockEvt) : Bool :=
  acqWhileHoldingFrom hold acq (false, false) tr

/-- A fresh context state: `n` addressable slots, all per-sequence
records default-constructed, no completion mapped. -/
def freshState (n : Int) : MicoState :=
  { n_seq_max := n
    kv_cache_seq := 0
    crop_tokens_lable := []
    antiprompt_tokens := []
    process_seqs := fun _ => {}
    cmpl_to_seq := [] }

/-- A state whose slots are all busy (`is_infering = true`). -/
def busyState (n : Int) : MicoState :=
  { freshState n with process_seqs := fun _ => { is_infering := true } }

/-- A fresh state carrying a given completion-to-slot map. -/
def withMap (m : CmplMap) : MicoState :=
  { freshState 0 with cmpl_to_seq := m }

/-- A fresh state carrying given antiprompt tokens. -/
def withAnti (a : List Int) : MicoState :=
  { freshState 0 with antiprompt_tokens := a }

/-- The state `runConstructor okDeps okParams` builds. -/
def okBuilt : MicoState :=
  { n_seq_max := 3
    kv_cache_seq := 1
    crop_tokens_lable := []
    antiprompt_tokens := []
    process_seqs := fun _ => {}
    cmpl_to_seq := [] }

/-- Deps for a successful construction: every external call succeeds and
the tokenizer sends every string to `[1]` (so the placeholder occurs in
the rendered label at index 0). -/
def okDeps : CtorDeps :=
  { model_ok := true
    lctx_ok := true
    model_has_chat_template := true
    tokenize := fun _ => [1]
    render_user_example := fun _ => ""
    mtmd_load_ok := fun _ => true }

/-- Deps identical to `okDeps` except that the multimodal loader fails on
every path, the empty one included. -/
def noVisionDeps : CtorDeps :=
  { okDeps with mtmd_load_ok := fun _ => false }

/-- Params with no vision model path configured. -/
def okParams : CommonParams :=
  { n_seq_max := 4, cache_seq := 1, chat_template := "", mmproj_path := "" }

/-- Params with a vision model path configured. -/
def visionParams : CommonParams :=
  { okParams with mmproj_path := "mmproj.gguf" }

/-! Helper lemmas about the association-list model of `std::map`. -/

theorem mapFind_mapInsert_self (m : CmplMap) (k : Nat) (v : Int) :
    mapFind (mapInsert m k v) k = some v := by
  induction m with
  | nil => simp [mapInsert, mapFind]
  | cons e rest ih =>
    obtain ⟨k', v'⟩ := e
    by_cases h1 : k < k'
    · simp [mapInsert, h1, mapFind]
    · by_cases h2 : k = k'
      · simp [mapInsert, h1, h2, mapFind]
      · have hne : k' ≠ k := fun h => h2 h.symm
        simp [mapInsert, h1, h2, mapFind, hne, ih]

theorem mapFind_none_iff_mapCount_zero (m : CmplMap) (k : Nat) :
    mapFind m k = none ↔ mapCount m k = 0 := by
  induction m with
  | nil => simp [mapFind, mapCount]
  | cons e rest ih =>
    obtain ⟨k', v'⟩ := e
    by_cases h : k' = k
    · simp [mapFind, mapCount, List.filter, h]
    · simpa [mapFind, mapCount, List.filter, h] using ih

theorem mapFind_some_of_mapCount_pos (m : CmplMap) (k : Nat)
    (h : 0 < mapCount m k) : ∃ v, mapFind m k = some v := by
  rcases hf : mapFind m k with _ | v
  · rw [mapFind_none_iff_mapCount_zero] at hf
    omega
  · exact ⟨v, rfl⟩

/-! Characterization of the free-slot scan in `set_seq_id`. -/

theorem findFreeSlot_cases (s : MicoState) :
    ∀ (fuel i : Nat),
      (findFreeSlot s i fuel = -1 ∧
        ∀ k, i ≤ k → k < i + fuel → (get_seq_state s k).is_infering = true) ∨
      (∃ k, i ≤ k ∧ k < i + fuel ∧ findFreeSlot s i fuel = (k : Int) ∧
        (get_seq_state s k).is_infering = false ∧
        ∀ j, i ≤ j → j < k → (get_seq_state s j).is_infering = true) := by
  intro fuel
  induction fuel with
  | zero =>
    intro i
    left
    refine ⟨rfl, ?_⟩
    intro k hk1 hk2
    omega
  | succ n ih =>
    intro i
    by_cases hbusy : (get_seq_state s i).is_infering
    · rcases ih (i + 1) with ⟨h1, h2⟩ | ⟨k, hk1, hk2, hk3, hk4, hk5⟩
      · left
        refine ⟨by simpa [findFreeSlot, hbusy] using h1, ?_⟩
        intro k hk1 hk2
        rcases Nat.eq_or_lt_of_le hk1 with h | h
        · exact h ▸ hbusy
        · exact h2 k h (by omega)
      · right
        refine ⟨k, by omega, by omega, by simpa [findFreeSlot, hbusy] using hk3, hk4, ?_⟩
        intro j hj1 hj2
        rcases Nat.eq_or_lt_of_le hj1 with h | h
        · exact h ▸ hbusy
        · exact hk5 j h hj2
    · right
      exact ⟨i, Nat.le_refl i, by omega,
        by simp [findFreeSlot, hbusy], by simpa using hbusy, fun j hj1 hj2 => by omega⟩

/-! Arithmetic helpers for the machine-width conversions. -/

theorem sizeSub_eq_sub (a b : Nat) (hb : b ≤ a) (ha : a < SIZE_T_MOD) :
    sizeSub a b = a - b := by
  have h1 : (0 : Int) ≤ (a : Int) - (b : Int) := by
    omega
  have h2 : (a : Int) - (b : Int) < (SIZE_T_MOD : Int) := by
    omega
  rw [sizeSub, Int.emod_eq_of_lt h1 h2]
  omega

theorem wrap32_eq_self (x : Int) (h1 : -(2 ^ 31) ≤ x) (h2 : x < 2 ^ 31) :
    wrap32 x = x := by
  have h3 : (0 : Int) ≤ x + 2 ^ 31 := by omega
  have h4 : x + 2 ^ 31 < 2 ^ 32 := by omega
  rw [wrap32, Int.emod_eq_of_lt h3 h4]
  omega

/-! Lemmas relating the crop-boundary loops to the spec-side
first-occurrence search. -/

theorem scanAux_spec (label : List Int) (i : Nat) :
    ∀ (ph : List Int) (j : Nat), i + j + ph.length ≤ label.length →
      scanAux label i ph j =
        .ok (decide ((label.drop (i + j)).take ph.length = ph)) := by
  intro ph
  induction ph with
  | nil =>
    intro j h
    simp [scanAux]
  | cons p rest ih =>
    intro j h
    have hlt : i + j < label.length := by
      simp only [List.length_cons] at h
      omega
    have hget : label.get? (i + j) = some (label[i + j]) := by
      rw [List.get?_eq_getElem?, List.getElem?_eq_getElem hlt]
    have hdt : (label.drop (i + j)).take (p :: rest).length =
        label[i + j] :: (label.drop (i + j + 1)).take rest.length := by
      rw [List.drop_eq_getElem_cons hlt, List.length_cons, List.take_succ_cons]
    rw [hdt]
    by_cases hxp : label[i + j] = p
    · have harg : i + (j + 1) = i + j + 1 := by omega
      have hrec := ih (j + 1) (by simp only [List.length_cons] at h; omega)
      rw [harg] at hrec
      simp only [scanAux, hget, hxp, ne_eq, not_true_eq_false, if_neg,
        ite_false, hrec]
      congr 1
      rw [decide_eq_decide]
      constructor
      · intro he
        rw [he]
      · intro he
        injection he
    · simp only [scanAux, hget, ne_eq, hxp, not_false_eq_true, ite_true]
      congr 1
      symm
      rw [decide_eq_false_iff_not]
      intro hc
      injection hc with hc1 _
      exact hxp hc1

theorem firstOccurAux_none_of_big (label ph : List Int) :
    ∀ (fuel i : Nat), label.length < i + ph.length →
      firstOccurAux label ph i fuel = none := by
  intro fuel
  induction fuel with
  | zero =>
    intro i h
    rfl
  | succ n ih =>
    intro i h
    have hno : ¬ occursAt label ph i := by
      rintro ⟨h1, _⟩
      omega
    simp [firstOccurAux, hno, ih (i + 1) (by omega)]

theorem firstOccurAux_some_spec (label ph : List Int) :
    ∀ (fuel i k : Nat), firstOccurAux label ph i fuel = some k →
      occursAt label ph k ∧ i ≤ k ∧
        ∀ j, i ≤ j → j < k → ¬ occursAt label ph j := by
  intro fuel
  induction fuel with
  | zero =>
    intro i k h
    exact absurd h (by simp [firstOccurAux])
  | succ n ih =>
    intro i k h
    by_cases hocc : occursAt label ph i
    · simp only [firstOccurAux, if_pos hocc, Option.some.injEq] at h
      subst h
      exact ⟨hocc, Nat.le_refl _, fun j hj1 hj2 => by omega⟩
    · simp only [firstOccurAux, if_neg hocc] at h
      obtain ⟨h1, h2, h3⟩ := ih (i + 1) k h
      refine ⟨h1, by omega, ?_⟩
      intro j hj1 hj2
      rcases Nat.eq_or_lt_of_le hj1 with he | hl
      · exact he ▸ hocc
      · exact h3 j hl hj2

theorem firstOccurAux_none_spec (label ph : List Int) :
    ∀ (fuel i : Nat), firstOccurAux label ph i fuel = none →
      ∀ k, i ≤ k → k < i + fuel → ¬ occursAt label ph k := by
  intro fuel
  induction fuel with
  | zero =>
    intro i _ k hk1 hk2
    omega
  | succ n ih =>
    intro i h k hk1 hk2
    by_cases hocc : occursAt label ph i
    · simp [firstOccurAux, hocc] at h
    · simp only [firstOccurAux, if_neg hocc] at h
      rcases Nat.eq_or_lt_of_le hk1 with he | hl
      · exact he ▸ hocc
      · exact ih (i + 1) h k hl (by omega)

theorem cropAux_eq_firstOccurAux (label ph : List Int)
    (hP : ph.length ≤ label.length) :
    ∀ (fuel i : Nat), i + fuel = label.length - ph.length + 1 →
      cropAux label ph i fuel =
        .ok (match firstOccurAux label ph i (fuel + ph.length) with
             | some k => label.take k
             | none => []) := by
  intro fuel
  induction fuel with
  | zero =>
    intro i hi
    rw [firstOccurAux_none_of_big label ph (0 + ph.length) i (by omega)]
    rfl
  | succ n ih =>
    intro i hi
    have hin : i + 0 + ph.length ≤ label.length := by omega
    have hscan := scanAux_spec label i ph 0 hin
    rw [Nat.add_zero] at hscan
    have hfe : n + 1 + ph.length = (n + ph.length) + 1 := by omega
    by_cases hocc : (label.drop i).take ph.length = ph
    · have hoc : occursAt label ph i := ⟨by omega, hocc⟩
      simp only [cropAux, hscan, hocc, decide_True]
      rw [hfe]
      simp only [firstOccurAux, if_pos hoc]
    · have hoc : ¬ occursAt label ph i := by
        rintro ⟨_, hc⟩
        exact hocc hc
      have hrec := ih (i + 1) (by omega)
      simp only [cropAux, hscan, hocc, decide_False]
      rw [hfe]
      simp only [firstOccurAux, if_neg hoc]
      exact hrec

/-! Lemmas about the lock-event traces. -/

theorem acqWhileHoldingFrom_scan_cmpl (s : MicoState) :
    ∀ (fuel i : Nat) (h : Bool × Bool),
      acqWhileHoldingFrom Mu.processSeqs Mu.cmplToSeq h
        (scanTrace s i fuel ++ [(Mu.cmplToSeq, false)]) = false := by
  intro fuel
  induction fuel with
  | zero =>
    intro i h
    simp [scanTrace, acqWhileHoldingFrom]
  | succ n ih =>
    intro i h
    by_cases hb : (get_seq_state s i).is_infering
    · simp [scanTrace, get_seq_state_trace, hb, acqWhileHoldingFrom, stepHeld, ih]
    · simp [scanTrace, get_seq_state_trace, hb, acqWhileHoldingFrom, stepHeld]

theorem acqWhileHolding_set_seq_id (s : MicoState) :
    acqWhileHolding Mu.processSeqs Mu.cmplToSeq (set_seq_id_trace s) = false := by
  unfold acqWhileHolding set_seq_id_trace
  simp [acqWhileHoldingFrom, stepHeld, acqWhileHoldingFrom_scan_cmpl]

theorem bothHeld_set_seq_id (s : MicoState) (h : 0 < s.n_seq_max) :
    bothHeldDuring (set_seq_id_trace s) = true := by
  have htn : 0 < s.n_seq_max.toNat := Int.lt_toNat.mpr (by simpa using h)
  obtain ⟨n, hn⟩ : ∃ n, s.n_seq_max.toNat = n + 1 :=
    ⟨s.n_seq_max.toNat - 1, by omega⟩
  unfold bothHeldDuring set_seq_id_trace
  rw [hn]
  simp [scanTrace, get_seq_state_trace, bothHeldFrom, stepHeld]

/-! Claim theorems. -/

/-- C1 counterexample: two reserve calls with distinct completion ids (1
then 2) on a fresh two-slot context both return slot 0, because
`set_seq_id` selects by the `is_infering` flag, which reservation does not
set; afterwards both completion ids map to slot 0, so the returned slots
are not distinct and a slot maps to two completion ids at one instant. -/
theorem set_seq_id_duplicate_slot_cex :
    (set_seq_id (freshState 2) 1).1 = 0 ∧
    (set_seq_id ((set_seq_id (freshState 2) 1).2) 2).1 = 0 ∧
    (set_seq_id ((set_seq_id (freshState 2) 1).2) 2).2.cmpl_to_seq
      = [(1, 0), (2, 0)] := by
  decide

/-- C1 (amended): each reserve call returns the lowest slot index whose
`is_infering` flag is false, in range `0..n_seq_max−1`, and records the
mapping; when every slot's flag is true it returns `-1` and mutates
nothing; a reserve call never returns a slot whose flag is already true,
so distinct results across calls are guaranteed exactly when each
returned slot's flag is set before the next call (reserve itself does not
set it). -/
theorem set_seq_id_spec (s : MicoState) (c : Nat) :
    ((set_seq_id s c).1 ≠ -1 →
      0 ≤ (set_seq_id s c).1 ∧ (set_seq_id s c).1 < s.n_seq_max ∧
      (get_seq_state s ((set_seq_id s c).1).toNat).is_infering = false ∧
      (∀ j : Nat, (j : Int) < (set_seq_id s c).1 →
        (get_seq_state s j).is_infering = true) ∧
      (set_seq_id s c).2.cmpl_to_seq
        = mapInsert s.cmpl_to_seq c (set_seq_id s c).1) ∧
    ((∀ i : Nat, i < s.n_seq_max.toNat →
        (get_seq_state s i).is_infering = true) →
      set_seq_id s c = (-1, s)) ∧
    (∀ i : Nat, (get_seq_state s i).is_infering = true →
      (set_seq_id s c).1 ≠ (i : Int)) := by
  rcases findFreeSlot_cases s s.n_seq_max.toNat 0 with
    ⟨h1, _⟩ | ⟨k, _, hk2, hk3, hk4, hk5⟩
  · have hss : set_seq_id s c = (-1, s) := by
      simp [set_seq_id, h1]
    refine ⟨?_, fun _ => hss, ?_⟩
    · intro hne
      rw [hss] at hne
      exact absurd rfl hne
    · intro i _
      rw [hss]
      simp only
      omega
  · have hne : ((k : Nat) : Int) ≠ -1 := by omega
    have hss : set_seq_id s c =
        ((k : Int), { s with cmpl_to_seq := mapInsert s.cmpl_to_seq c (k : Int) }) := by
      simp [set_seq_id, hk3, hne]
    have hklt : (k : Int) < s.n_seq_max := Int.lt_toNat.mp (by omega)
    refine ⟨?_, ?_, ?_⟩
    · intro _
      rw [hss]
      refine ⟨by omega, hklt, ?_, ?_, rfl⟩
      · simpa using hk4
      · intro j hj
        simp only at hj
        exact hk5 j (Nat.zero_le j) (by exact_mod_cast hj)
    · intro hall
      have hbusy := hall k (by omega)
      rw [hk4] at hbusy
      exact absurd hbusy (by simp)
    · intro i hbusy
      rw [hss]
      simp only
      intro hcontra
      have hki : k = i := by exact_mod_cast hcontra
      rw [hki, hbusy] at hk4
      exact absurd hk4 (by simp)

/-- C1 witness: on a one-slot context whose slot is busy, reserve returns
`-1` and leaves the state unchanged. -/
theorem set_seq_id_spec_witness :
    set_seq_id (busyState 1) 7 = (-1, busyState 1) :=
  (set_seq_id_spec (busyState 1) 7).2.1 (by decide)

/-- C2: the claim fails on the code. `erase_seq` initializes
`size_t to_erase = -1` (that is, `2^64 − 1`) and tests `to_erase >= 0`,
which is vacuously true for an unsigned value, so release of an unmapped
slot returns `true`, not `false`; moreover it calls
`cmpl_to_seq.erase(2^64 − 1)`, which mutates the mapping whenever the
completion id `2^64 − 1` happens to be present. Evaluations: on an empty
mapping, `erase_seq(3)` returns `true`; on the mapping
`{2^64 − 1 ↦ 5}`, `erase_seq(3)` returns `true` and deletes the entry
`2^64 − 1 ↦ 5` even though no completion id maps to slot 3. -/
theorem erase_seq_unmapped_returns_true :
    (erase_seq (withMap []) 3).1 = true ∧
    (erase_seq (withMap []) 3).2.cmpl_to_seq = [] ∧
    (erase_seq (withMap [(SIZE_T_MOD - 1, 5)]) 3).1 = true ∧
    (erase_seq (withMap [(SIZE_T_MOD - 1, 5)]) 3).2.cmpl_to_seq = [] := by
  decide

/-- C3 counterexample: on a one-slot context, a `set_seq_id` execution
holds `cmpl_to_seq_mutex` and, inside its slot scan, `get_seq_state`
acquires `process_seqs_mutex` — so one thread holds both mutexes at the
same time, contradicting "the two are never held simultaneously". -/
theorem mutexes_nested_cex :
    bothHeldDuring (set_seq_id_trace (freshState 1)) = true := by
  decide

/-- C3 (amended): `set_seq_id` does hold both mutexes at once — it
acquires `process_seqs_mutex` (via `get_seq_state`) while holding
`cmpl_to_seq_mutex`, whenever `n_seq_max > 0`; the other operations
(`get_seq_id`, `erase_seq`, `get_seq_state`) each hold exactly one mutex,
and no operation acquires `cmpl_to_seq_mutex` while holding
`process_seqs_mutex`, so the lock order is consistent and no
nested-lock-ordering deadlock cycle can arise. -/
theorem lock_discipline_spec :
    (∀ s : MicoState, 0 < s.n_seq_max →
      bothHeldDuring (set_seq_id_trace s) = true) ∧
    bothHeldDuring get_seq_id_trace = false ∧
    bothHeldDuring erase_seq_trace = false ∧
    bothHeldDuring get_seq_state_trace = false ∧
    (∀ s : MicoState,
      acqWhileHolding Mu.processSeqs Mu.cmplToSeq (set_seq_id_trace s) = false) ∧
    acqWhileHolding Mu.processSeqs Mu.cmplToSeq get_seq_id_trace = false ∧
    acqWhileHolding Mu.processSeqs Mu.cmplToSeq erase_seq_trace = false ∧
    acqWhileHolding Mu.processSeqs Mu.cmplToSeq get_seq_state_trace = false :=
  ⟨bothHeld_set_seq_id, by decide, by decide, by decide,
    acqWhileHolding_set_seq_id, by decide, by decide, by decide⟩

/-- C3 witness: the nesting shows up concretely on a fresh two-slot
context. -/
theorem lock_discipline_spec_witness :
    bothHeldDuring (set_seq_id_trace (freshState 2)) = true :=
  lock_discipline_spec.1 (freshState 2) (by decide)

/-- C4 counterexample: with no vision model path configured
(`mmproj_path = ""`) but a loader that fails on every path, construction
is fatal — the constructor always calls the loader and `exit(1)`s on a
null result, never testing whether a path was configured. -/
theorem vision_fatal_without_path_cex :
    runConstructor noVisionDeps okParams = Except.error CtorErr.exit1 := rfl

/-- C4 (amended): failure to load the vision sub-context is always fatal,
configured path or not: past the model/context and chat-template checks
and a well-defined crop computation, construction succeeds exactly when
the multimodal loader succeeds on the configured path string — the empty
string included — so construction always consults the loader's result. -/
theorem init_vision_fatal_iff (d : CtorDeps) (p : CommonParams)
    (hm : d.model_ok = true) (hl : d.lctx_ok = true)
    (ht : d.model_has_chat_template = true ∨ p.chat_template ≠ "")
    (hcrop : ∃ cr, cropTokensLable (d.tokenize (d.render_user_example "*=*"))
        (d.tokenize "*=*") = Except.ok cr) :
    ((∃ st, runConstructor d p = Except.ok st) ↔
      d.mtmd_load_ok p.mmproj_path = true) ∧
    (d.mtmd_load_ok p.mmproj_path = false →
      runConstructor d p = Except.error CtorErr.exit1) := by
  obtain ⟨cr, hcr⟩ := hcrop
  have htf : (!d.model_has_chat_template && decide (p.chat_template = "")) = false := by
    rcases ht with h | h
    · simp [h]
    · simp [h]
  cases hv : d.mtmd_load_ok p.mmproj_path with
  | true =>
    constructor
    · simp [runConstructor, hm, hl, htf, hcr, init_vision_context, hv]
    · intro hcontra
      exact absurd hcontra (by simp)
  | false =>
    have hrc : runConstructor d p = Except.error CtorErr.exit1 := by
      simp [runConstructor, hm, hl, htf, hcr, init_vision_context, hv]
    refine ⟨?_, fun _ => hrc⟩
    rw [hrc]
    simp

/-- C4 witness: with a configured path and a succeeding loader
construction succeeds; with the same configured path and a failing loader
it is fatal. -/
theorem init_vision_fatal_iff_witness :
    (∃ st, runConstructor okDeps visionParams = Except.ok st) ∧
    runConstructor noVisionDeps visionParams = Except.error CtorErr.exit1 :=
  ⟨(init_vision_fatal_iff okDeps visionParams rfl rfl (Or.inl rfl)
      ⟨[], rfl⟩).1.mpr rfl,
   (init_vision_fatal_iff noVisionDeps visionParams rfl rfl (Or.inl rfl)
      ⟨[], rfl⟩).2 rfl⟩

/-- C5 counterexample: for the pair `label = []`, `placeholder = [0]` no
occurrence exists, yet the crop computation does not leave the boundary
empty — it performs an out-of-bounds read (the unsigned loop bound
underflows), so the claim fails for this pair of token sequences. -/
theorem cropTokensLable_oob_cex :
    cropTokensLable [] [0] = Except.error () ∧ ∀ i, ¬ occursAt [] [0] i := by
  refine ⟨rfl, ?_⟩
  rintro i ⟨h1, _⟩
  simp only [List.length_cons, List.length_nil] at h1
  omega

/-- C5 (amended): provided the placeholder token sequence is no longer
than the rendered tokens (and the rendered length is a representable
`size_t`), the computed `crop_tokens_lable` equals the tokens strictly
before the first index at which the placeholder occurs contiguously in
the rendered tokens, and is empty when no occurrence exists; without that
size proviso the scan can read out of bounds (see the counterexample). -/
theorem cropTokensLable_spec (label ph : List Int)
    (hsize : label.length < SIZE_T_MOD) (hlen : ph.length ≤ label.length) :
    (∀ i, firstOccur label ph = some i →
      cropTokensLable label ph = Except.ok (label.take i) ∧
      occursAt label ph i ∧ ∀ j, j < i → ¬ occursAt label ph j) ∧
    (firstOccur label ph = none →
      cropTokensLable label ph = Except.ok [] ∧ ∀ i, ¬ occursAt label ph i) := by
  have hb : sizeSub label.length ph.length + 1 = (label.length - ph.length) + 1 := by
    rw [sizeSub_eq_sub _ _ hlen hsize]
  have hmain := cropAux_eq_firstOccurAux label ph hlen
    ((label.length - ph.length) + 1) 0 (by omega)
  have hfuel : (label.length - ph.length + 1) + ph.length = label.length + 1 := by
    omega
  rw [hfuel] at hmain
  have hct : cropTokensLable label ph =
      .ok (match firstOccur label ph with
           | some k => label.take k
           | none => []) := by
    rw [cropTokensLable, hb]
    exact hmain
  constructor
  · intro i hi
    obtain ⟨ho1, _, ho3⟩ :=
      firstOccurAux_some_spec label ph (label.length + 1) 0 i hi
    rw [hct, hi]
    exact ⟨rfl, ho1, fun j hj => ho3 j (Nat.zero_le j) hj⟩
  · intro hn
    rw [hct, hn]
    refine ⟨rfl, ?_⟩
    intro i hocc
    have hib : i < 0 + (label.length + 1) := by
      rcases hocc with ⟨h1, _⟩
      omega
    exact firstOccurAux_none_spec label ph (label.length + 1) 0 hn i
      (Nat.zero_le i) hib hocc

/-- C5 witness: with rendered tokens `[10, 11, 12]` and placeholder
`[11]` (the shape of `<user>*=*</user>` around `*=*`), the boundary is
the tokens before the occurrence, `[10]`. -/
theorem cropTokensLable_spec_witness :
    cropTokensLable [10, 11, 12] [11] = Except.ok [10] :=
  ((cropTokensLable_spec [10, 11, 12] [11] (by decide) (by decide)).1 1
    (by decide)).1

/-- C6: `check_antiprompt` returns true exactly when an antiprompt is
configured and it is a suffix of the generated tokens; in particular it
returns false when no antiprompt is configured or the generated sequence
is shorter than the antiprompt, and it never matches anywhere but at the
very end. -/
theorem check_antiprompt_spec (s : MicoState) (gen : List Int) :
    check_antiprompt s gen = true ↔
      s.antiprompt_tokens ≠ [] ∧ s.antiprompt_tokens <:+ gen := by
  unfold check_antiprompt
  by_cases he : s.antiprompt_tokens.isEmpty = true
  · rw [if_pos (by simp [he])]
    exact iff_of_false (by simp)
      (fun ⟨hne, _⟩ => hne (List.isEmpty_iff.mp he))
  · by_cases hl : gen.length < s.antiprompt_tokens.length
    · rw [if_pos (by simp [hl])]
      exact iff_of_false (by simp)
        (fun ⟨_, hs⟩ => absurd hs.length_le (by omega))
    · rw [if_neg (by simp [he, hl]), decide_eq_true_eq]
      constructor
      · intro hd
        refine ⟨fun hnil => he (by simp [hnil]), ?_⟩
        rw [List.suffix_iff_eq_drop]
        exact hd.symm
      · rintro ⟨_, hs⟩
        rw [List.suffix_iff_eq_drop] at hs
        exact hs.symm

/-- C6 witness: antiprompt `[1, 2]` matches at the end of `[9, 1, 2]`. -/
theorem check_antiprompt_spec_witness :
    check_antiprompt (withAnti [1, 2]) [9, 1, 2] = true :=
  (check_antiprompt_spec (withAnti [1, 2]) [9, 1, 2]).mpr (by decide)

/-- C7: `get_seq_id` is a pure read (it returns the state unchanged; the
`count > 0` guard keeps `operator[]` from default-inserting); immediately
after a successful reserve of a completion id it returns the slot reserve
returned; and on a completion id absent from the mapping (never reserved,
or already released) it returns the `-1` sentinel. -/
theorem get_seq_id_spec (s : MicoState) (c : Nat) :
    ((get_seq_id s c).2 = s) ∧
    ((set_seq_id s c).1 ≠ -1 →
      (get_seq_id (set_seq_id s c).2 c).1 = (set_seq_id s c).1) ∧
    (mapFind s.cmpl_to_seq c = none → (get_seq_id s c).1 = -1) := by
  refine ⟨?_, ?_, ?_⟩
  · unfold get_seq_id
    by_cases hc : 0 < mapCount s.cmpl_to_seq c
    · rw [if_pos hc]
      obtain ⟨v, hv⟩ := mapFind_some_of_mapCount_pos _ _ hc
      simp only [mapIndex, hv]
    · rw [if_neg hc]
  · intro hne
    rcases findFreeSlot_cases s s.n_seq_max.toNat 0 with
      ⟨h1, _⟩ | ⟨k, _, _, hk3, _, _⟩
    · have hss : set_seq_id s c = (-1, s) := by
        simp [set_seq_id, h1]
      exact absurd (by rw [hss]) hne
    · have hknn : ((k : Nat) : Int) ≠ -1 := by omega
      have hss : set_seq_id s c =
          ((k : Int), { s with cmpl_to_seq := mapInsert s.cmpl_to_seq c (k : Int) }) := by
        simp [set_seq_id, hk3, hknn]
      rw [hss]
      have hfind : mapFind (mapInsert s.cmpl_to_seq c (k : Int)) c = some (k : Int) :=
        mapFind_mapInsert_self s.cmpl_to_seq c (k : Int)
      have hcnt : 0 < mapCount (mapInsert s.cmpl_to_seq c (k : Int)) c := by
        by_contra hno
        have h0 : mapCount (mapInsert s.cmpl_to_seq c (k : Int)) c = 0 := by omega
        rw [← mapFind_none_iff_mapCount_zero, hfind] at h0
        exact Option.noConfusion h0
      unfold get_seq_id
      rw [if_pos hcnt]
      simp [mapIndex, hfind]
  · intro hnone
    have h0 : ¬ 0 < mapCount s.cmpl_to_seq c := by
      rw [mapFind_none_iff_mapCount_zero] at hnone
      omega
    unfold get_seq_id
    rw [if_neg h0]

/-- C7 witness: on a fresh one-slot context, lookup right after the
reserve of completion id 9 returns the reserved slot. -/
theorem get_seq_id_spec_witness :
    (get_seq_id ((set_seq_id (freshState 1) 9).2) 9).1
      = (set_seq_id (freshState 1) 9).1 :=
  (get_seq_id_spec (freshState 1) 9).2.1 (by decide)

/-- C8: a successful reserve call mutates only the completion-to-slot
mapping: the whole per-sequence state map is unchanged (hence every field
of every `LlamaSeqState` record), the returned slot's `is_infering` flag
is not set (it is still false), and the configuration fields are
untouched. -/
theorem set_seq_id_frame (s : MicoState) (c : Nat)
    (h : (set_seq_id s c).1 ≠ -1) :
    (set_seq_id s c).2.process_seqs = s.process_seqs ∧
    ((set_seq_id s c).2.process_seqs
      ((set_seq_id s c).1).toNat).is_infering = false ∧
    (set_seq_id s c).2.n_seq_max = s.n_seq_max ∧
    (set_seq_id s c).2.kv_cache_seq = s.kv_cache_seq ∧
    (set_seq_id s c).2.crop_tokens_lable = s.crop_tokens_lable ∧
    (set_seq_id s c).2.antiprompt_tokens = s.antiprompt_tokens := by
  rcases findFreeSlot_cases s s.n_seq_max.toNat 0 with
    ⟨h1, _⟩ | ⟨k, _, _, hk3, hk4, _⟩
  · have hss : set_seq_id s c = (-1, s) := by
      simp [set_seq_id, h1]
    exact absurd (by rw [hss]) h
  · have hknn : ((k : Nat) : Int) ≠ -1 := by omega
    have hss : set_seq_id s c =
        ((k : Int), { s with cmpl_to_seq := mapInsert s.cmpl_to_seq c (k : Int) }) := by
      simp [set_seq_id, hk3, hknn]
    rw [hss]
    exact ⟨rfl, by simpa using hk4, rfl, rfl, rfl, rfl⟩

/-- C8 witness: after reserving completion id 5 on a fresh one-slot
context, the returned slot's `is_infering` flag is still false. -/
theorem set_seq_id_frame_witness :
    ((set_seq_id (freshState 1) 5).2.process_seqs
      ((set_seq_id (freshState 1) 5).1).toNat).is_infering = false :=
  (set_seq_id_frame (freshState 1) 5 (by decide)).2.1

/-- C9: when construction succeeds and the cache reservation is ≥ 0 and
strictly less than the configured maximum (an `int32_t`), the number of
addressable slots equals the configured maximum minus the reservation. -/
theorem n_seq_max_capacity_spec (d : CtorDeps) (p : CommonParams)
    (st : MicoState) (h0 : 0 ≤ p.cache_seq) (h1 : p.cache_seq < p.n_seq_max)
    (h2 : p.n_seq_max < 2 ^ 31)
    (hok : runConstructor d p = Except.ok st) :
    st.n_seq_max = p.n_seq_max - p.cache_seq := by
  simp only [runConstructor] at hok
  split at hok
  · exact Except.noConfusion hok
  · split at hok
    · exact Except.noConfusion hok
    · split at hok
      · exact Except.noConfusion hok
      · split at hok
        · exact Except.noConfusion hok
        · rw [Except.ok.injEq] at hok
          subst hok
          exact wrap32_eq_self _ (by omega) (by omega)

/-- C9 witness: `max_sequences = 4`, `cache_reservation = 1` yields three
addressable slots after a successful construction. -/
theorem n_seq_max_capacity_spec_witness :
    okBuilt.n_seq_max = okParams.n_seq_max - okParams.cache_seq :=
  n_seq_max_capacity_spec okDeps okParams okBuilt (by decide) (by decide)
    (by decide) rfl

/-- C10: the safety claim fails on the code. With rendered-label tokens
`[5]` and placeholder tokens `[5, 7]` (placeholder longer than label),
the unsigned loop bound `label_tokens.size() - placeholder_tokens.size()`
underflows to `2^64 − 1` and the very first inner scan reads
`label_tokens[1]`, one past the end — an out-of-bounds access, not an
empty boundary. -/
theorem crop_oob_at_failing_input :
    cropTokensLable [5] [5, 7] = Except.error () ∧
    sizeSub 1 2 = SIZE_T_MOD - 1 := by
  exact ⟨rfl, by decide⟩

end Miloco
